import Mathlib

/-
  Shallow embedding of estroz/seekret (src/main.go).

  The repository has one source file of interest.  Its core is:

  * `HasSensitive(fileData []byte) []SensitivePos` — the detector; its body is
    literally `return nil`.
  * `CrawlOrg(ctx, client, orgName) []SensitiveRepo` — lists an org's public
    repos, clones each into a temp dir, parses an optional `.credignore`
    manifest, walks the tree, calls `HasSensitive` per file, and collects
    repos with non-nil findings.

  Modelling choices:
  * Go byte slices handed to the detector, and file contents, are modelled as
    `String` (the Go code itself converts the ignore-file bytes to `string`).
  * A Go `nil` slice returned by the detector is `none`; a non-nil slice is
    `some list` (the code distinguishes nil from non-nil via `positions != nil`).
  * File-system paths are lists of clean components (`Path`); `filepath.Join`
    of clean components is list append, and rendering a path as the Go string
    uses `/` as separator.  This matches Go's behaviour on clean relative
    paths without `.`/`..` components, which are the only paths arising here.
  * External effects (GitHub listing, `os.Getwd`, `ioutil.TempDir`,
    `git.PlainCloneContext`, `os.Stat`, `ioutil.ReadFile`, `filepath.Walk`)
    are modelled by explicit outcome data (`CrawlInput`, `RepoWorld`,
    `FileEnt`).  `filepath.Walk` hands the walk callback each entry of the
    cloned tree in traversal order; `entries` is that list, relative to the
    repo directory, after the `.git` removal step (whose own failure is only
    logged and has no control effect).
  * The `defer os.RemoveAll(tmpDir)` and the per-repo clone calls are made
    observable through an event trace, so that cleanup-on-every-exit-path and
    abort-before-any-clone claims are statable.
-/

/-- Go struct `SensitivePos`: the byte frame containing sensitive data
(fields `Start`, `End`; Go `int` is modelled as `Int`). -/
structure SensitivePos where
  Start : Int
  End : Int
deriving DecidableEq

/-- Go struct `SensitiveFile`: a file with one or more sensitive data. -/
structure SensitiveFile where
  Path : String
  Positions : List SensitivePos
deriving DecidableEq

/-- Go struct `SensitiveRepo`: a repo with one or more sensitive files. -/
structure SensitiveRepo where
  Name : String
  Files : List SensitiveFile
deriving DecidableEq

/-- Go constant `credIgnoreFile = ".credignore"`. -/
def credIgnoreFile : String := ".credignore"

/-- Embeds Go `HasSensitive(fileData []byte) []SensitivePos`.
The Go body is literally `return nil`; a nil slice is `none`. -/
def HasSensitive (fileData : String) : Option (List SensitivePos) := none

/-- A detector has the type of `HasSensitive`; the orchestration logic is
stated over an arbitrary detector and instantiated with `HasSensitive`. -/
abbrev Detector := String → Option (List SensitivePos)

/-- A file-system path as a list of clean components. -/
abbrev FPath := List String

/-- Render a component path as the Go string (components joined by `/`). -/
def pathToString (p : FPath) : String := String.intercalate "/" p

/-- Go `filepath.Join(a, b)` for nonempty clean single-string arguments. -/
def joinStr (a b : String) : String := a ++ "/" ++ b

/-- Go `filepath.Rel(base, target)` for the clean component paths used here:
succeeds exactly when `base` is a prefix of `target`, returning the rest
(`[]` plays the role of Go's `"."` for the equal case, which in `CrawlOrg`
only the root directory entry reaches, and directories are skipped first). -/
def filepathRel (base target : FPath) : Option FPath :=
  if target.take base.length = base then some (target.drop base.length) else none

/-- One entry handed to the `filepath.Walk` callback, described relative to
the repo directory: its path components, whether it is a directory, and the
`ioutil.ReadFile` outcome (`none` = read error). -/
structure FileEnt where
  relPath : FPath
  isDir : Bool
  content : Option String
deriving DecidableEq

/-- Outcomes of the external world for one repository: clone success,
`os.Stat` on the `.credignore` file, its `ioutil.ReadFile` outcome,
whether `filepath.Walk` returns an error, and the walked entries. -/
structure RepoWorld where
  cloneOk : Bool
  ignoreStatOk : Bool
  ignoreRead : Option String
  walkErr : Bool
  entries : List FileEnt
deriving DecidableEq

/-- One GitHub API repository record: optional name and clone URL
(Go `*string` fields; `none` = nil pointer). -/
structure RepoRecord where
  name : Option String
  cloneURL : Option String
deriving DecidableEq

/-- Helper for `splitLines`: accumulates the current chunk (reversed). -/
def splitLinesAux (sep : Char) : List Char → List Char → List String
  | [], acc => [⟨acc.reverse⟩]
  | c :: cs, acc =>
    if c = sep then ⟨acc.reverse⟩ :: splitLinesAux sep cs []
    else splitLinesAux sep cs (c :: acc)

/-- Go `strings.Split(s, "\n")`: the chunks of `s` between newlines, in
order, including empty chunks (structurally recursive so that concrete
instances evaluate). -/
def splitLines (s : String) : List String := splitLinesAux '\n' s.data []

/-- The `.credignore` line filter from `CrawlOrg`:
`if f != "" && f[0] != '#'` (keep non-empty lines not starting with `#`). -/
def keepIgnoreLine (f : String) : Bool :=
  (f != "") && (f.data.head? != some '#')

/-- The `filesToIgnore` set built by `CrawlOrg` for one repo, as a list of
keys.  Only when `os.Stat` on the ignore file succeeds does the code insert
`filepath.Join(repoName, credIgnoreFile)` and, if the read also succeeds,
every kept line of `strings.Split(string(ignoreData), "\n")` verbatim. -/
def parseIgnore (repoName : String) (statOk : Bool) (readRes : Option String) :
    List String :=
  if statOk then
    joinStr repoName credIgnoreFile ::
      (match readRes with
       | some ignoreData => (splitLines ignoreData).filter keepIgnoreLine
       | none => [])
  else []

/-- The body of the `filepath.Walk` callback `f` in `CrawlOrg`, for one
entry: skip directories, compute `filepath.Rel(repoDir, path)` (skip on
error), skip paths in `filesToIgnore`, skip on read error, then run the
detector and, when it returns non-nil, produce the `SensitiveFile`. -/
def fileStep (detect : Detector) (repoDir : FPath) (filesToIgnore : List String)
    (ent : FileEnt) : Option SensitiveFile :=
  if ent.isDir then none
  else
    match filepathRel repoDir (repoDir ++ ent.relPath) with
    | none => none
    | some relPath =>
      if pathToString relPath ∈ filesToIgnore then none
      else
        match ent.content with
        | none => none
        | some fileData =>
          match detect fileData with
          | some positions => some ⟨pathToString relPath, positions⟩
          | none => none

/-- The walk of one cloned repo in `CrawlOrg`: the files appended to
`sensitiveRepo.Files`, in walk order.  `repoDir = filepath.Join(tmpDir,
repoName)` with `tmpDir` already reduced to its base name. -/
def scanRepo (detect : Detector) (tmpDir repoName : String) (w : RepoWorld) :
    List SensitiveFile :=
  w.entries.filterMap
    (fileStep detect [tmpDir, repoName]
      (parseIgnore repoName w.ignoreStatOk w.ignoreRead))

/-- Observable effects of `CrawlOrg`: creating/removing the temp dir and
attempting a clone for a repo record that passed the field validation. -/
inductive Event where
  | tmpCreated : Event
  | cloneAttempt (repoName : String) : Event
  | tmpRemoved : Event
deriving DecidableEq

/-- One iteration of the repo loop in `CrawlOrg`: validate the name and
clone-URL fields (silently skip otherwise), clone (log-and-continue on
failure), scan, check the walk error (log-and-continue), and keep the
`SensitiveRepo` only when `sensitiveRepo.Files != nil`.  Returns the
optional contribution to `srs` and the emitted events. -/
def processRepoT (detect : Detector) (tmpDir : String)
    (x : RepoRecord × RepoWorld) : Option SensitiveRepo × List Event :=
  match x.1.name with
  | none => (none, [])
  | some repoName =>
    if repoName = "" then (none, [])
    else
      match x.1.cloneURL with
      | none => (none, [])
      | some cloneURL =>
        if cloneURL = "" then (none, [])
        else if x.2.cloneOk = false then (none, [Event.cloneAttempt repoName])
        else if x.2.walkErr then (none, [Event.cloneAttempt repoName])
        else if scanRepo detect tmpDir repoName x.2 = [] then
          (none, [Event.cloneAttempt repoName])
        else
          (some ⟨repoName, scanRepo detect tmpDir repoName x.2⟩,
           [Event.cloneAttempt repoName])

/-- Outcomes of the setup steps of `CrawlOrg`: the `ListByOrg` call
(`none` = error, returning nil), `os.Getwd` success, and the
`ioutil.TempDir` outcome (`some` = created, with its base name). -/
structure CrawlInput where
  listing : Option (List (RepoRecord × RepoWorld))
  getwdOk : Bool
  tmpDir : Option String

/-- Embeds `CrawlOrg` with the detector as a parameter, returning the
report `srs` and the event trace.  On `ListByOrg`, `Getwd` or `TempDir`
failure the function returns nil at once (no temp dir event, no clone).
On success, `defer os.RemoveAll(tmpDir)` runs at the function's single
return point (the loop only ever uses `continue`), so the trace is
`tmpCreated`, the per-repo events, then `tmpRemoved`. -/
def crawlOrgWithT (detect : Detector) (inp : CrawlInput) :
    List SensitiveRepo × List Event :=
  match inp.listing with
  | none => ([], [])
  | some repos =>
    if inp.getwdOk = false then ([], [])
    else
      match inp.tmpDir with
      | none => ([], [])
      | some tmpDir =>
        let results := repos.map (processRepoT detect tmpDir)
        (results.filterMap (fun r => r.1),
         Event.tmpCreated :: (results.flatMap (fun r => r.2) ++ [Event.tmpRemoved]))

/-- The actual program: `CrawlOrg` calls the actual `HasSensitive`. -/
def CrawlOrg (inp : CrawlInput) : List SensitiveRepo × List Event :=
  crawlOrgWithT HasSensitive inp

/- ------------------------------------------------------------------ -/
/- Helper lemmas (shared).                                             -/
/- ------------------------------------------------------------------ -/

/-- With the actual detector (`return nil`), the walk callback never
produces a file. -/
theorem fileStep_HasSensitive (repoDir : FPath) (ign : List String)
    (ent : FileEnt) : fileStep HasSensitive repoDir ign ent = none := by
  unfold fileStep HasSensitive
  split
  · rfl
  · split
    · rfl
    · split
      · rfl
      · cases ent.content <;> rfl

/-- With the actual detector, a scanned repo has no files. -/
theorem scanRepo_HasSensitive (tmpDir repoName : String) (w : RepoWorld) :
    scanRepo HasSensitive tmpDir repoName w = [] := by
  unfold scanRepo
  simp [fileStep_HasSensitive]

/-- With the actual detector, no repo ever contributes to the report. -/
theorem processRepoT_fst_HasSensitive (tmpDir : String)
    (x : RepoRecord × RepoWorld) :
    (processRepoT HasSensitive tmpDir x).1 = none := by
  unfold processRepoT
  split
  · rfl
  · split
    · rfl
    · split
      · rfl
      · split
        · rfl
        · split
          · rfl
          · simp [scanRepo_HasSensitive]

/- ------------------------------------------------------------------ -/
/- Claim theorems.                                                     -/
/- ------------------------------------------------------------------ -/

/-- Claim C1 (code-bug evidence): on a 44-character random base64 string —
content well above any entropy threshold — `HasSensitive` returns nil,
i.e. no finding at all, although its own doc comment promises the byte
positions of data resembling secret information.  The claim requires at
least one finding. -/
theorem c1_hasSensitive_no_finding_on_high_entropy :
    HasSensitive "aXJn8qT0bZ3kL5mQ9wYe2RsVu7HcD1fAxPoN4vGtM6iB" = none := rfl

/-- Claim C2: `HasSensitive` returns nil for every input byte slice, and
consequently `CrawlOrg` returns a nil report for every listing result,
every repository content and every setup outcome. -/
theorem c2_detector_nil_report_empty :
    (∀ fileData : String, HasSensitive fileData = none) ∧
    (∀ inp : CrawlInput, (CrawlOrg inp).1 = []) := by
  constructor
  · intro fileData
    rfl
  · intro inp
    unfold CrawlOrg crawlOrgWithT
    rcases inp with ⟨listing, getwdOk, tmpDir⟩
    cases listing with
    | none => rfl
    | some repos =>
      cases getwdOk
      · rfl
      · cases tmpDir with
        | none => rfl
        | some tmpDir =>
          simp [List.filterMap_map, processRepoT_fst_HasSensitive]

/-- Claim C10: the detector is deterministic and idempotent — on identical
input bytes, two invocations of `HasSensitive` return identical output
(indeed the constant nil output). -/
theorem c10_detector_deterministic (d₁ d₂ : String) (h : d₁ = d₂) :
    HasSensitive d₁ = HasSensitive d₂ ∧ HasSensitive d₁ = none := by
  constructor
  · rw [h]
  · rfl

/-- Witness for C10 at a concrete input. -/
theorem c10_detector_deterministic_witness :
    HasSensitive "abc" = HasSensitive "abc" ∧ HasSensitive "abc" = none :=
  c10_detector_deterministic "abc" "abc" rfl

/-- If a repo's clone fails, the loop iteration contributes nothing to the
report (it logs and continues). -/
theorem processRepoT_fst_of_cloneFail (detect : Detector) (tmpDir : String)
    (rr : RepoRecord) (w : RepoWorld) (h : w.cloneOk = false) :
    (processRepoT detect tmpDir (rr, w)).1 = none := by
  unfold processRepoT
  repeat' split
  all_goals simp_all

/-- Any repo contributed to the report has a non-empty file list. -/
theorem processRepoT_fst_some (detect : Detector) (tmpDir : String)
    (x : RepoRecord × RepoWorld) (sr : SensitiveRepo)
    (h : (processRepoT detect tmpDir x).1 = some sr) : sr.Files ≠ [] := by
  unfold processRepoT at h
  repeat' split at h
  all_goals simp_all
  subst h
  simp_all

/-- A repo with valid fields, successful clone, error-free walk and a
non-empty scan result is contributed to the report with exactly that
scan result. -/
theorem processRepoT_fst_of_valid (detect : Detector) (tmpDir : String)
    (rr : RepoRecord) (w : RepoWorld) (repoName cloneURL : String)
    (hn : rr.name = some repoName) (hn' : repoName ≠ "")
    (hu : rr.cloneURL = some cloneURL) (hu' : cloneURL ≠ "")
    (hc : w.cloneOk = true) (hw : w.walkErr = false)
    (hf : scanRepo detect tmpDir repoName w ≠ []) :
    (processRepoT detect tmpDir (rr, w)).1 =
      some ⟨repoName, scanRepo detect tmpDir repoName w⟩ := by
  unfold processRepoT
  simp [hn, hu, hn', hu', hc, hw, hf]

/-- The report of a successful crawl is the filterMap of the per-repo
loop results. -/
theorem crawlOrgWithT_fst (detect : Detector)
    (repos : List (RepoRecord × RepoWorld)) (tmpDir : String) :
    (crawlOrgWithT detect ⟨some repos, true, some tmpDir⟩).1 =
      repos.filterMap (fun x => (processRepoT detect tmpDir x).1) := by
  show List.filterMap (fun r => r.1) (repos.map (processRepoT detect tmpDir)) = _
  rw [List.filterMap_map]
  rfl

/-- Claim C3: a repository appears in the report returned by the crawl if
and only if its scan produced at least one finding: every reported repo has
a non-empty file list, and every validly-listed, successfully-cloned,
error-free-walked repo whose scan is non-empty is in the report. -/
theorem c3_report_iff_findings (detect : Detector)
    (repos : List (RepoRecord × RepoWorld)) (tmpDir : String) :
    (∀ sr ∈ (crawlOrgWithT detect ⟨some repos, true, some tmpDir⟩).1,
      sr.Files ≠ []) ∧
    (∀ rr w repoName cloneURL, (rr, w) ∈ repos →
      rr.name = some repoName → repoName ≠ "" →
      rr.cloneURL = some cloneURL → cloneURL ≠ "" →
      w.cloneOk = true → w.walkErr = false →
      scanRepo detect tmpDir repoName w ≠ [] →
      SensitiveRepo.mk repoName (scanRepo detect tmpDir repoName w) ∈
        (crawlOrgWithT detect ⟨some repos, true, some tmpDir⟩).1) := by
  constructor
  · intro sr hsr
    rw [crawlOrgWithT_fst] at hsr
    rcases List.mem_filterMap.mp hsr with ⟨x, hx, hfx⟩
    exact processRepoT_fst_some detect tmpDir x sr hfx
  · intro rr w repoName cloneURL hmem hn hn' hu hu' hc hw hf
    rw [crawlOrgWithT_fst]
    exact List.mem_filterMap.mpr
      ⟨(rr, w), hmem,
        processRepoT_fst_of_valid detect tmpDir rr w repoName cloneURL
          hn hn' hu hu' hc hw hf⟩

/-- A sample detector used in concrete instances: flags exactly the
content `"SECRET"` at bytes 0..6. -/
def detectW : Detector := fun s => if s = "SECRET" then some [⟨0, 6⟩] else none

/-- A sample walked file entry containing flagged content. -/
def entW : FileEnt := ⟨["config.yml"], false, some "SECRET"⟩

/-- A sample repo world: clone succeeds, no ignore file, clean walk. -/
def wW : RepoWorld := ⟨true, false, none, false, [entW]⟩

/-- A sample listed repo record with valid fields. -/
def rrW : RepoRecord := ⟨some "r1", some "u"⟩

/-- Witness for C3 at a concrete crawl. -/
theorem c3_report_iff_findings_witness :
    SensitiveRepo.mk "r1" (scanRepo detectW "t" "r1" wW) ∈
      (crawlOrgWithT detectW ⟨some [(rrW, wW)], true, some "t"⟩).1 :=
  (c3_report_iff_findings detectW [(rrW, wW)] "t").2 rrW wW "r1" "u"
    (List.mem_singleton.mpr rfl) rfl (by decide) rfl (by decide) rfl rfl
    (by decide)

/-- Claim C5: a clone failure for one listed repository only omits that
repository: the report equals the report of the same crawl without it. -/
theorem c5_clone_failure_isolated (detect : Detector)
    (pre post : List (RepoRecord × RepoWorld)) (rrB : RepoRecord)
    (wB : RepoWorld) (tmpDir : String) (h : wB.cloneOk = false) :
    (crawlOrgWithT detect
        ⟨some (pre ++ (rrB, wB) :: post), true, some tmpDir⟩).1 =
      (crawlOrgWithT detect ⟨some (pre ++ post), true, some tmpDir⟩).1 := by
  rw [crawlOrgWithT_fst, crawlOrgWithT_fst]
  simp [List.filterMap_append, List.filterMap_cons,
    processRepoT_fst_of_cloneFail detect tmpDir rrB wB h]

/-- A sample repo world whose clone fails. -/
def wBad : RepoWorld := ⟨false, false, none, false, []⟩

/-- Witness for C5 at a concrete crawl. -/
theorem c5_clone_failure_isolated_witness :
    wBad.cloneOk = false ∧
    (crawlOrgWithT detectW
        ⟨some ([] ++ (rrW, wBad) :: [(rrW, wW)]), true, some "t"⟩).1 =
      (crawlOrgWithT detectW ⟨some ([] ++ [(rrW, wW)]), true, some "t"⟩).1 :=
  ⟨rfl, c5_clone_failure_isolated detectW [] [(rrW, wW)] rrW wBad "t" rfl⟩

/-- Claim C6: a listing failure, a `Getwd` failure or a `TempDir` failure
aborts the whole run at once: the report is nil and no event is emitted —
no temp dir is created, no repository is cloned or scanned. -/
theorem c6_setup_failure_aborts (detect : Detector) (inp : CrawlInput)
    (h : inp.listing = none ∨ inp.getwdOk = false ∨ inp.tmpDir = none) :
    crawlOrgWithT detect inp = ([], []) := by
  rcases inp with ⟨listing, getwdOk, tmpDir⟩
  rcases h with h | h | h
  · subst h
    rfl
  · subst h
    cases listing with
    | none => rfl
    | some repos => simp [crawlOrgWithT]
  · subst h
    cases listing with
    | none => rfl
    | some repos =>
      cases getwdOk
      · simp [crawlOrgWithT]
      · simp [crawlOrgWithT]

/-- Witness for C6 at a concrete failed listing. -/
theorem c6_setup_failure_aborts_witness :
    (CrawlInput.mk none true (some "t")).listing = none ∧
    crawlOrgWithT HasSensitive (CrawlInput.mk none true (some "t")) = ([], []) :=
  ⟨rfl, c6_setup_failure_aborts HasSensitive (CrawlInput.mk none true (some "t"))
    (Or.inl rfl)⟩

/-- Claim C9: whenever the temp working directory is created, its removal
is in the trace, and is the last action of the crawl (the deferred
`os.RemoveAll(tmpDir)` runs at the function's single return point; the
loop body never returns early). -/
theorem c9_tmpdir_removed (detect : Detector) (inp : CrawlInput)
    (h : Event.tmpCreated ∈ (crawlOrgWithT detect inp).2) :
    Event.tmpRemoved ∈ (crawlOrgWithT detect inp).2 ∧
    (crawlOrgWithT detect inp).2.getLast? = some Event.tmpRemoved := by
  rcases inp with ⟨listing, getwdOk, tmpDir⟩
  cases listing with
  | none => simp [crawlOrgWithT] at h
  | some repos =>
    cases getwdOk
    · simp [crawlOrgWithT] at h
    · cases tmpDir with
      | none => simp [crawlOrgWithT] at h
      | some tmpDir =>
        have htr : (crawlOrgWithT detect ⟨some repos, true, some tmpDir⟩).2 =
            (Event.tmpCreated ::
              (repos.map (processRepoT detect tmpDir)).flatMap (fun r => r.2)) ++
              [Event.tmpRemoved] := rfl
        rw [htr]
        exact ⟨by simp, List.getLast?_concat _⟩

/-- Witness for C9 at a concrete crawl. -/
theorem c9_tmpdir_removed_witness :
    Event.tmpRemoved ∈
      (crawlOrgWithT HasSensitive (CrawlInput.mk (some []) true (some "t"))).2 ∧
    (crawlOrgWithT HasSensitive
        (CrawlInput.mk (some []) true (some "t"))).2.getLast? =
      some Event.tmpRemoved :=
  c9_tmpdir_removed HasSensitive (CrawlInput.mk (some []) true (some "t"))
    (by decide)

/-- Claim C7: parsing an existing manifest keeps exactly the lines that are
neither empty nor `#`-prefixed, verbatim; and during the scan a
non-directory file with a well-formed relative path is excluded (no
finding regardless of content or detector) exactly when that relative
path is string-equal to an element of `filesToIgnore`; otherwise the walk
step behaves as the plain read-and-detect step. -/
theorem c7_ignore_exact_match (repoName ignoreData : String)
    (detect : Detector) (repoDir : FPath) (filesToIgnore : List String)
    (ent : FileEnt) (relPath : FPath) (hdir : ent.isDir = false)
    (hrel : filepathRel repoDir (repoDir ++ ent.relPath) = some relPath) :
    (∀ f : String,
      keepIgnoreLine f = true ↔ ¬(f = "" ∨ f.data.head? = some '#')) ∧
    (∀ f ∈ splitLines ignoreData, keepIgnoreLine f = true →
      f ∈ parseIgnore repoName true (some ignoreData)) ∧
    ((∃ e ∈ filesToIgnore, pathToString relPath = e) →
      fileStep detect repoDir filesToIgnore ent = none) ∧
    ((¬∃ e ∈ filesToIgnore, pathToString relPath = e) →
      fileStep detect repoDir filesToIgnore ent =
        (ent.content.bind detect).map
          (fun ps => SensitiveFile.mk (pathToString relPath) ps)) := by
  refine ⟨?_, ?_, ?_, ?_⟩
  · intro f
    simp [keepIgnoreLine, not_or]
  · intro f hf hkeep
    unfold parseIgnore
    simp only [if_pos]
    exact List.mem_cons_of_mem _ (List.mem_filter.mpr ⟨hf, hkeep⟩)
  · rintro ⟨e, he, heq⟩
    have hm : pathToString relPath ∈ filesToIgnore := heq ▸ he
    simp [fileStep, hdir, hrel, hm]
  · intro hne
    have hm : pathToString relPath ∉ filesToIgnore :=
      fun hmem => hne ⟨pathToString relPath, hmem, rfl⟩
    simp only [fileStep, hdir, hrel, Bool.false_eq_true, if_false, if_neg hm]
    cases ent.content with
    | none => rfl
    | some fileData =>
      show (match detect fileData with
            | some positions =>
              some (SensitiveFile.mk (pathToString relPath) positions)
            | none => none) =
          Option.map (fun ps => SensitiveFile.mk (pathToString relPath) ps)
            (detect fileData)
      cases detect fileData with
      | none => rfl
      | some positions => rfl

/-- Witness for C7 at a concrete manifest and file. -/
theorem c7_ignore_exact_match_witness :
    keepIgnoreLine "#c" ≠ true ∧
    "a.txt" ∈ parseIgnore "r" true (some "a.txt\n#c\n") ∧
    fileStep detectW ["t", "r"] ["s.txt"] ⟨["s.txt"], false, some "SECRET"⟩ =
      none := by
  have h := c7_ignore_exact_match "r" "a.txt\n#c\n" detectW ["t", "r"]
    ["s.txt"] ⟨["s.txt"], false, some "SECRET"⟩ ["s.txt"] rfl (by decide)
  refine ⟨fun hk => (h.1 "#c").mp hk (Or.inr (by decide)), ?_, ?_⟩
  · exact h.2.1 "a.txt" (by decide) (by decide)
  · exact h.2.2.1 ⟨"s.txt", by decide, by decide⟩

/-- A walk entry whose read fails contributes nothing. -/
theorem fileStep_content_none (detect : Detector) (repoDir : FPath)
    (ign : List String) (ent : FileEnt) (h : ent.content = none) :
    fileStep detect repoDir ign ent = none := by
  unfold fileStep
  split
  · rfl
  · split
    · rfl
    · split
      · rfl
      · rw [h]

/-- Claim C8: a failure to read one visited file yields no finding for that
file, and the rest of the walk is unaffected: the repo's scan result with
that entry equals the scan result without it (so a single read failure
never aborts the repository scan). -/
theorem c8_read_failure_isolated (detect : Detector)
    (tmpDir repoName : String) (cloneOk statOk walkErr : Bool)
    (ignoreRead : Option String) (pre post : List FileEnt) (ent : FileEnt)
    (h : ent.content = none) :
    fileStep detect [tmpDir, repoName] (parseIgnore repoName statOk ignoreRead)
        ent = none ∧
    scanRepo detect tmpDir repoName
        (RepoWorld.mk cloneOk statOk ignoreRead walkErr (pre ++ ent :: post)) =
      scanRepo detect tmpDir repoName
        (RepoWorld.mk cloneOk statOk ignoreRead walkErr (pre ++ post)) := by
  have hf := fileStep_content_none detect [tmpDir, repoName]
    (parseIgnore repoName statOk ignoreRead) ent h
  refine ⟨hf, ?_⟩
  unfold scanRepo
  simp only [List.filterMap_append, List.filterMap_cons, hf]

/-- Witness for C8 at a concrete scan. -/
theorem c8_read_failure_isolated_witness :
    fileStep detectW ["t", "r1"] (parseIgnore "r1" false none)
        ⟨["b.txt"], false, none⟩ = none ∧
    scanRepo detectW "t" "r1"
        (RepoWorld.mk true false none false
          ([] ++ ⟨["b.txt"], false, none⟩ :: [entW])) =
      scanRepo detectW "t" "r1"
        (RepoWorld.mk true false none false ([] ++ [entW])) :=
  c8_read_failure_isolated detectW "t" "r1" true false false none []
    [entW] ⟨["b.txt"], false, none⟩ rfl

/-- Claim C4 (code-bug evidence): for a repo named `"repo"` whose manifest
exists with empty content, the built ignore set is exactly
`["repo/.credignore"]`; the relative path under which the walk actually
visits the manifest is `".credignore"` (relative to the repo directory),
which is not in the set — so the manifest file is scanned: a detector that
flags its content produces a finding on it.  And when the manifest is
absent, the ignore set is empty, not the manifest's own path. -/
theorem c4_manifest_not_excluded :
    parseIgnore "repo" true (some "") = ["repo/.credignore"] ∧
    parseIgnore "repo" false none = [] ∧
    pathToString [credIgnoreFile] = ".credignore" ∧
    ".credignore" ∉ parseIgnore "repo" true (some "") ∧
    fileStep (fun s => if s = "KEY--" then some [⟨0, 5⟩] else none)
        ["tmp_x", "repo"] (parseIgnore "repo" true (some ""))
        ⟨[credIgnoreFile], false, some "KEY--"⟩ =
      some (SensitiveFile.mk ".credignore" [⟨0, 5⟩]) := by
  refine ⟨by decide, by decide, by decide, by decide, by decide⟩
